import Mathlib

/-
Verification development for the RDMA connection and buffer-management
layer declared in src/util/rdma/connection.h.  The repository ships only
the header under src, so the behaviour of each operation is modelled from
the specification text; the header itself is embedded faithfully (function
names and declared return types) and is the authority wherever it decides
a question, in particular on which declarations can return a value at all.
-/

namespace RdmaConn

/-- Error taxonomy of the public interface (spec section 7). -/
inductive RdmaError where
  | ResourceExhausted
  | InvalidHandle
  | BindError
  | CreditExhausted
  | Timeout
  | DisconnectTimeout
  | InvalidSize
deriving DecidableEq, Repr

/-- Result of an int-returning operation of the interface: success or a
taxonomy error. -/
inductive OpResult where
  | ok
  | err (e : RdmaError)
deriving DecidableEq, Repr

/-- C return types appearing in src/util/rdma/connection.h. -/
inductive CType where
  | void
  | int
  | int64
  | ptrConnection
  | ptrDataEntry
  | ptrCtlCmd
deriving DecidableEq, Repr

/-- A C return value can carry an error indication back to the caller
exactly when the function does not return void. -/
def CType.reportsToCaller : CType → Bool
  | .void => false
  | _ => true

/-- The functions declared in src/util/rdma/connection.h. -/
inductive HFun where
  | get_time_ns
  | conn_rdma_post_recv
  | conn_rdma_post_send
  | rdma_destroy_ioBuf
  | rdma_setup_ioBuf
  | rdma_adjust_txBuf
  | destroy_connection
  | init_connection
  | destroy_conn_qp
  | create_conn_qp
  | add_conn_to_server
  | del_conn_from_server
  | conn_disconnect
  | rdma_exchange_rx
  | rdma_notify_buf_full
  | conn_app_write_external_buffer
  | conn_app_write
  | conn_add_write_request
  | conn_flush_write_request
  | get_pool_data_buffer
  | get_conn_tx_data_buffer
  | get_cmd_buffer
  | get_recv_msg_buffer
  | set_conn_context
  | set_loop_exchange
  | set_send_timeout_ns
  | set_recv_timeout_ns
  | set_close_wait_timeout_ns
  | release_cmd_buffer
  | release_pool_data_buffer
  | release_conn_rx_data_buffer
  | release_conn_tx_data_buffer
deriving DecidableEq, Repr

/-- Declared return type of each function, transcribed from
src/util/rdma/connection.h lines 22 to 84. -/
def headerReturnType : HFun → CType
  | .get_time_ns => .int64
  | .conn_rdma_post_recv => .int
  | .conn_rdma_post_send => .int
  | .rdma_destroy_ioBuf => .void
  | .rdma_setup_ioBuf => .int
  | .rdma_adjust_txBuf => .int
  | .destroy_connection => .void
  | .init_connection => .ptrConnection
  | .destroy_conn_qp => .void
  | .create_conn_qp => .int
  | .add_conn_to_server => .int
  | .del_conn_from_server => .int
  | .conn_disconnect => .void
  | .rdma_exchange_rx => .int
  | .rdma_notify_buf_full => .int
  | .conn_app_write_external_buffer => .int
  | .conn_app_write => .int
  | .conn_add_write_request => .int
  | .conn_flush_write_request => .int
  | .get_pool_data_buffer => .ptrDataEntry
  | .get_conn_tx_data_buffer => .ptrDataEntry
  | .get_cmd_buffer => .ptrCtlCmd
  | .get_recv_msg_buffer => .ptrDataEntry
  | .set_conn_context => .void
  | .set_loop_exchange => .void
  | .set_send_timeout_ns => .void
  | .set_recv_timeout_ns => .void
  | .set_close_wait_timeout_ns => .void
  | .release_cmd_buffer => .int
  | .release_pool_data_buffer => .int
  | .release_conn_rx_data_buffer => .int
  | .release_conn_tx_data_buffer => .int

/-- Buffer handle (data_entry, spec section 3): a descriptor over a
contiguous region of pre-registered memory, carrying start address,
length, remote-access key and local-access key. -/
structure data_entry where
  addr : Nat
  len : Nat
  rkey : Nat
  lkey : Nat
deriving DecidableEq, Repr

/-- Modelled from the spec: the per-direction credit state machine of
section 4.3, which the missing connection.c implements: Unpublished,
Published with a byte capacity, Exhausted. -/
inductive CreditState where
  | Unpublished
  | Published (capacity : Nat)
  | Exhausted
deriving DecidableEq, Repr

/-- Remaining write credit in bytes: the capacity while Published, zero
in the Unpublished and Exhausted states. -/
def CreditState.remaining : CreditState → Nat
  | .Published n => n
  | _ => 0

/-- Whether the direction is in the Published state. -/
def CreditState.isPublished : CreditState → Bool
  | .Published _ => true
  | _ => false

/-- Modelled from the spec: the Connection record of section 3, as far as
the claims need it.  The implementation file connection.c is not under
src, so the fields follow the spec text: remote-write credit with the
capacity most recently published by the peer, a ghost count of bytes
written since the last successful exchange, the pending write batch, the
sequence of entries delivered to the peer RX region (in delivery order),
the entries copied into the local TX region, queue-pair flags, the TX
capacity, the three configured timeouts, the application context pointer
and the loop-exchange flag. -/
structure Connection where
  remoteCredit : CreditState := .Unpublished
  bytesSinceExchange : Nat := 0
  lastPublished : Nat := 0
  pendingBatch : List data_entry := []
  peerRx : List data_entry := []
  txRegion : List data_entry := []
  txCapacity : Nat := 0
  qpBound : Bool := false
  qpDestroyed : Bool := false
  sendTimeoutNs : Int := 0
  recvTimeoutNs : Int := 0
  closeWaitTimeoutNs : Int := 0
  connContext : Option Nat := none
  loopExchange : Bool := false
deriving DecidableEq, Repr

/-- Modelled from the spec: init_connection allocates a zero-initialized
Connection not yet bound to a transport endpoint (section 4.2).  The
device identifier, role and external-TX flag do not affect the state the
claims observe. -/
def init_connection (nd : Nat) (connType : Nat) (useExternalTx : Bool) : Connection :=
  { }

/-- Modelled from the spec: create_conn_qp binds the Connection to an
externally delivered endpoint, creating the queue pair; it fails with
BindError if the endpoint is already bound (section 4.2). -/
def create_conn_qp (conn : Connection) (id : Nat) : OpResult × Connection :=
  if conn.qpBound then (.err .BindError, conn)
  else (.ok, { conn with qpBound := true, qpDestroyed := false })

/-- Modelled from the spec: destroy_conn_qp tears down the queue pair
without freeing the Connection object (section 4.2). -/
def destroy_conn_qp (conn : Connection) : Connection :=
  { conn with qpBound := false, qpDestroyed := true }

/-- Modelled from the spec: destroy_connection is callable only after the
queue pair is destroyed or the Connection was never bound (section 4.2);
the result records whether that precondition holds and destruction
proceeds. -/
def destroy_connection (conn : Connection) : Bool :=
  !conn.qpBound

/-- Modelled from the spec: rdma_exchange_rx performs the buffer-location
handshake of section 4.3; on receipt of the peer command it sets the
remote-write credit to the capacity the peer published and the counter of
bytes written since the last exchange restarts.  peerCapacity is the
capacity carried by the received peer command, which the C call reads
from the command channel. -/
def rdma_exchange_rx (conn : Connection) (peerCapacity : Nat) : OpResult × Connection :=
  (.ok, { conn with
    remoteCredit := .Published peerCapacity,
    bytesSinceExchange := 0,
    lastPublished := peerCapacity })

/-- Modelled from the spec: the effect on the writing peer of receiving
the buffer-full notice that rdma_notify_buf_full posts: its write credit
for the connection drops to zero and the direction enters the Exhausted
state (section 4.3). -/
def recv_notify_buf_full (conn : Connection) : Connection :=
  { conn with remoteCredit := .Exhausted }

/-- Modelled from the spec: conn_app_write copies the entry into the TX
region and issues a remote write into the published peer RX region,
decrementing the remote-write credit by the written length; while the
direction is not Published, or when the length exceeds the remaining
credit, it fails with CreditExhausted and changes nothing (sections 4.3
and 4.4). -/
def conn_app_write (conn : Connection) (entry : data_entry) : OpResult × Connection :=
  if conn.remoteCredit.isPublished = true ∧ entry.len ≤ conn.remoteCredit.remaining then
    (.ok, { conn with
      remoteCredit := .Published (conn.remoteCredit.remaining - entry.len),
      bytesSinceExchange := conn.bytesSinceExchange + entry.len,
      txRegion := conn.txRegion ++ [entry],
      peerRx := conn.peerRx ++ [entry] })
  else (.err .CreditExhausted, conn)

/-- Modelled from the spec: conn_app_write_external_buffer is the
zero-copy variant of conn_app_write (section 4.4): the buffer and local
key identify application-registered memory, so nothing is copied into
the internal TX region; credit accounting and the failure mode are those
of conn_app_write, with size the written length. -/
def conn_app_write_external_buffer (conn : Connection) (buffer : Nat)
    (entry : data_entry) (lkey : Nat) (size : Nat) : OpResult × Connection :=
  if conn.remoteCredit.isPublished = true ∧ size ≤ conn.remoteCredit.remaining then
    (.ok, { conn with
      remoteCredit := .Published (conn.remoteCredit.remaining - size),
      bytesSinceExchange := conn.bytesSinceExchange + size,
      peerRx := conn.peerRx ++ [entry] })
  else (.err .CreditExhausted, conn)

/-- Modelled from the spec: conn_add_write_request enqueues a write
without posting it, appending to the pending batch (section 4.4). -/
def conn_add_write_request (conn : Connection) (entry : data_entry) : OpResult × Connection :=
  (.ok, { conn with pendingBatch := conn.pendingBatch ++ [entry] })

/-- Aggregate size in bytes of a batch of entries. -/
def batchSize (es : List data_entry) : Nat :=
  (es.map data_entry.len).sum

/-- Modelled from the spec: conn_flush_write_request posts all pending
entries in the order they were added and clears the batch; it fails with
CreditExhausted, posting none of the batch and changing nothing, exactly
when the aggregate pending size exceeds the remaining credit
(all-or-nothing flush, section 4.4). -/
def conn_flush_write_request (conn : Connection) : OpResult × Connection :=
  if batchSize conn.pendingBatch ≤ conn.remoteCredit.remaining then
    if conn.remoteCredit.isPublished = true then
      (.ok, { conn with
        remoteCredit := .Published (conn.remoteCredit.remaining - batchSize conn.pendingBatch),
        bytesSinceExchange := conn.bytesSinceExchange + batchSize conn.pendingBatch,
        peerRx := conn.peerRx ++ conn.pendingBatch,
        pendingBatch := [] })
    else
      (.ok, { conn with
        peerRx := conn.peerRx ++ conn.pendingBatch,
        pendingBatch := [] })
  else (.err .CreditExhausted, conn)

/-- Modelled from the spec: rdma_adjust_txBuf resizes the TX region of
the connection to the given length; it fails with InvalidSize when the
length exceeds the available registered memory of the backing pool
(section 4.3). -/
def rdma_adjust_txBuf (conn : Connection) (length : Nat) (poolAvailable : Nat) :
    OpResult × Connection :=
  if poolAvailable < length then (.err .InvalidSize, conn)
  else (.ok, { conn with txCapacity := length })

/-- Modelled from the spec: conn_app_write with its bounded blocking made
explicit (section 5; connection.c is missing).  Insufficient credit
fails immediately with CreditExhausted before any blocking, as in
conn_app_write; after the credit check passes the call may block until
the operation completes or send_timeout_ns elapses, and timedOut tells
whether the bound expired, in which case the call returns Timeout
without corrupting connection state (failed and abandoned). -/
def conn_app_write_timed (conn : Connection) (entry : data_entry)
    (timedOut : Bool) : OpResult × Connection :=
  if (conn_app_write conn entry).1 = .ok then
    if timedOut then (.err .Timeout, conn) else conn_app_write conn entry
  else conn_app_write conn entry

/-- Modelled from the spec: conn_app_write_external_buffer with its
bounded blocking made explicit (section 5), in the manner of
conn_app_write_timed: CreditExhausted before any blocking when credit is
insufficient, Timeout leaving the state uncorrupted when the
send-timeout bound expires after the credit check passed. -/
def conn_app_write_external_buffer_timed (conn : Connection) (buffer : Nat)
    (entry : data_entry) (lkey : Nat) (size : Nat) (timedOut : Bool) :
    OpResult × Connection :=
  if (conn_app_write_external_buffer conn buffer entry lkey size).1 = .ok then
    if timedOut then (.err .Timeout, conn)
    else conn_app_write_external_buffer conn buffer entry lkey size
  else conn_app_write_external_buffer conn buffer entry lkey size

/-- Modelled from the spec: conn_flush_write_request with its bounded
blocking made explicit (section 5), in the manner of
conn_app_write_timed: CreditExhausted before any blocking when the
aggregate exceeds remaining credit, Timeout leaving the state
uncorrupted when the send-timeout bound expires after the credit check
passed. -/
def conn_flush_write_request_timed (conn : Connection) (timedOut : Bool) :
    OpResult × Connection :=
  if (conn_flush_write_request conn).1 = .ok then
    if timedOut then (.err .Timeout, conn) else conn_flush_write_request conn
  else conn_flush_write_request conn

/-- Modelled from the spec: rdma_exchange_rx with its bounded wait for
the peer command made explicit (section 5): peerReply is the capacity
carried by the peer command when it arrives within recv_timeout_ns, and
none when the bound expires, in which case the call returns Timeout
leaving the connection unchanged. -/
def rdma_exchange_rx_timed (conn : Connection) (peerReply : Option Nat) :
    OpResult × Connection :=
  match peerReply with
  | some n => rdma_exchange_rx conn n
  | none => (.err .Timeout, conn)

/-- Configuration: set_conn_context attaches an application context
pointer, never interpreted by this core (section 6). -/
def set_conn_context (conn : Connection) (ctx : Nat) : Connection :=
  { conn with connContext := some ctx }

/-- Configuration: set_loop_exchange enables automatic re-running of the
buffer-exchange handshake (section 6). -/
def set_loop_exchange (conn : Connection) : Connection :=
  { conn with loopExchange := true }

/-- Configuration: set_send_timeout_ns bounds the blocking write path in
nanoseconds; zero means block indefinitely (section 6). -/
def set_send_timeout_ns (conn : Connection) (timeoutNs : Int) : Connection :=
  { conn with sendTimeoutNs := timeoutNs }

/-- Configuration: set_recv_timeout_ns bounds the blocking wait for the
peer command in nanoseconds (section 6). -/
def set_recv_timeout_ns (conn : Connection) (timeoutNs : Int) : Connection :=
  { conn with recvTimeoutNs := timeoutNs }

/-- Configuration: set_close_wait_timeout_ns bounds the graceful
disconnect drain in nanoseconds (section 6). -/
def set_close_wait_timeout_ns (conn : Connection) (timeoutNs : Int) : Connection :=
  { conn with closeWaitTimeoutNs := timeoutNs }

/-- Internal record of how a disconnect ended; the C declaration of
conn_disconnect returns void, so this outcome is not returned to the
caller. -/
inductive DisconnectOutcome where
  | drained
  | timedOut
deriving DecidableEq, Repr

/-- Modelled from the spec: conn_disconnect requests graceful teardown
(section 4.2), with blocking time abstracted: drainNs is the time the
outstanding writes need to drain.  With wait_flag set and a positive
close-wait timeout smaller than drainNs, the timeout elapses first and
the call proceeds to forced teardown; in every case the queue pair is
torn down.  A timeout of zero means block indefinitely (section 6). -/
def conn_disconnect (conn : Connection) (waitFlag : Bool) (drainNs : Int) :
    DisconnectOutcome × Connection :=
  if waitFlag ∧ 0 < conn.closeWaitTimeoutNs ∧ conn.closeWaitTimeoutNs < drainNs then
    (.timedOut, { conn with qpBound := false, qpDestroyed := true })
  else
    (.drained, { conn with qpBound := false, qpDestroyed := true })

/-- Identity of a pool that can own buffer handles: the global data pool,
a given connection TX region, a given connection RX region, or a given
connection command-buffer pool (spec sections 3 and 4.1). -/
inductive PoolId where
  | globalData
  | connTx (cid : Nat)
  | connRx (cid : Nat)
  | cmdPool (cid : Nat)
deriving DecidableEq, Repr

/-- One pooled buffer record: handle identity, capacity in bytes, the
pool that owns it, and whether it is currently loaned out to a caller. -/
structure BufRec where
  hid : Nat
  cap : Nat
  origin : PoolId
  loaned : Bool
deriving DecidableEq, Repr

/-- Modelled from the spec: the registered-memory pool bookkeeping that
the missing connection.c implements, a free list of fixed-identity
handles tagged with the pool that owns them (sections 3 and 4.1). -/
structure PoolState where
  recs : List BufRec
deriving DecidableEq, Repr

/-- Take the first free record of the given pool with sufficient
capacity, marking it loaned; none when no such record exists. -/
def acquireRecs (p : PoolId) (size : Nat) : List BufRec → Option (Nat × List BufRec)
  | [] => none
  | r :: rs =>
      if r.origin = p ∧ r.loaned = false ∧ size ≤ r.cap then
        some (r.hid, { r with loaned := true } :: rs)
      else
        match acquireRecs p size rs with
        | some (h, rs2) => some (h, r :: rs2)
        | none => none

/-- Modelled from the spec: acquisition from a pool returns a handle of
at least the requested size or fails with ResourceExhausted when no free
handle of sufficient size exists (section 4.1). -/
def acquireFrom (p : PoolId) (size : Nat) (s : PoolState) :
    Except RdmaError (Nat × PoolState) :=
  match acquireRecs p size s.recs with
  | some (h, rs) => .ok (h, ⟨rs⟩)
  | none => .error .ResourceExhausted

/-- Modelled from the spec: get_pool_data_buffer draws from the shared
global pool (section 4.1). -/
def get_pool_data_buffer (size : Nat) (s : PoolState) :
    Except RdmaError (Nat × PoolState) :=
  acquireFrom PoolId.globalData size s

/-- Modelled from the spec: get_conn_tx_data_buffer draws from the TX
region of the given connection (section 4.1). -/
def get_conn_tx_data_buffer (cid : Nat) (size : Nat) (s : PoolState) :
    Except RdmaError (Nat × PoolState) :=
  acquireFrom (PoolId.connTx cid) size s

/-- Modelled from the spec: get_recv_msg_buffer draws from the RX region
of the given connection; the C call takes no size, so any free handle
qualifies (section 4.1). -/
def get_recv_msg_buffer (cid : Nat) (s : PoolState) :
    Except RdmaError (Nat × PoolState) :=
  acquireFrom (PoolId.connRx cid) 0 s

/-- Modelled from the spec: get_cmd_buffer draws from the dedicated
control pool of the given connection; the C call takes no size
(section 4.1). -/
def get_cmd_buffer (cid : Nat) (s : PoolState) :
    Except RdmaError (Nat × PoolState) :=
  acquireFrom (PoolId.cmdPool cid) 0 s

/-- Return the handle with the given identity to the given pool: the
first record with that identity must be owned by that pool and currently
loaned out; none otherwise. -/
def releaseRecs (p : PoolId) (h : Nat) : List BufRec → Option (List BufRec)
  | [] => none
  | r :: rs =>
      if r.hid = h then
        if r.origin = p ∧ r.loaned = true then
          some ({ r with loaned := false } :: rs)
        else none
      else
        match releaseRecs p h rs with
        | some rs2 => some (r :: rs2)
        | none => none

/-- Modelled from the spec: release returns a handle to its originating
pool; it fails with InvalidHandle when the handle does not belong to the
pool it is released to, or is not currently loaned out (double release)
(sections 3 and 4.1). -/
def releaseTo (p : PoolId) (h : Nat) (s : PoolState) : Except RdmaError PoolState :=
  match releaseRecs p h s.recs with
  | some rs => .ok ⟨rs⟩
  | none => .error .InvalidHandle

/-- Modelled from the spec: release_pool_data_buffer returns a handle to
the shared global pool (section 4.1). -/
def release_pool_data_buffer (h : Nat) (s : PoolState) : Except RdmaError PoolState :=
  releaseTo PoolId.globalData h s

/-- Modelled from the spec: release_conn_tx_data_buffer returns a handle
to the TX region of the given connection (section 4.1). -/
def release_conn_tx_data_buffer (cid : Nat) (h : Nat) (s : PoolState) :
    Except RdmaError PoolState :=
  releaseTo (PoolId.connTx cid) h s

/-- Modelled from the spec: release_conn_rx_data_buffer returns a handle
to the RX region of the given connection (section 4.1). -/
def release_conn_rx_data_buffer (cid : Nat) (h : Nat) (s : PoolState) :
    Except RdmaError PoolState :=
  releaseTo (PoolId.connRx cid) h s

/-- Modelled from the spec: release_cmd_buffer returns a handle to the
control pool of the given connection (section 4.1). -/
def release_cmd_buffer (cid : Nat) (h : Nat) (s : PoolState) :
    Except RdmaError PoolState :=
  releaseTo (PoolId.cmdPool cid) h s

/-- Modelled from the spec: add_conn_to_server adds the connection to the
active set of the listener (section 4.2). -/
def add_conn_to_server (cid : Nat) (server : List Nat) : OpResult × List Nat :=
  if cid ∈ server then (.ok, server) else (.ok, cid :: server)

/-- Modelled from the spec: del_conn_from_server removes the connection
from the active set of the listener; removing an absent member is a
no-op and not an error (section 4.2). -/
def del_conn_from_server (cid : Nat) (server : List Nat) : OpResult × List Nat :=
  (.ok, server.filter (fun x => x != cid))

/-- One event observed by the writing side of a connection: the
completion of a buffer-location exchange publishing a peer capacity,
receipt of a peer buffer-full notice, an immediate write, a zero-copy
write, a batch enqueue, or a batch flush. -/
inductive WriterOp where
  | exchangeRx (peerCapacity : Nat)
  | notifyFull
  | appWrite (entry : data_entry)
  | extWrite (buffer : Nat) (entry : data_entry) (lkey : Nat) (size : Nat)
  | addReq (entry : data_entry)
  | flushReq
deriving DecidableEq, Repr

/-- Whether the event is a completed buffer-location exchange. -/
def WriterOp.isExchange : WriterOp → Bool
  | .exchangeRx _ => true
  | _ => false

/-- State reached after one event; failing operations leave the state
unchanged by construction of the operations. -/
def stepConn (conn : Connection) : WriterOp → Connection
  | .exchangeRx n => (rdma_exchange_rx conn n).2
  | .notifyFull => recv_notify_buf_full conn
  | .appWrite e => (conn_app_write conn e).2
  | .extWrite b e k sz => (conn_app_write_external_buffer conn b e k sz).2
  | .addReq e => (conn_add_write_request conn e).2
  | .flushReq => (conn_flush_write_request conn).2

/-- State reached after a sequence of events. -/
def runConn (conn : Connection) (ops : List WriterOp) : Connection :=
  ops.foldl stepConn conn

/-- Enqueue a sequence of entries with conn_add_write_request. -/
def addAll (conn : Connection) (es : List data_entry) : Connection :=
  es.foldl (fun c e => (conn_add_write_request c e).2) conn

/-- The credit bookkeeping invariant: bytes written since the last
successful exchange plus the remaining credit never exceed the capacity
most recently published by the peer. -/
def CreditInv (c : Connection) : Prop :=
  c.bytesSinceExchange + c.remoteCredit.remaining ≤ c.lastPublished

lemma isPublished_iff (s : CreditState) :
    s.isPublished = true ↔ ∃ n, s = .Published n := by
  cases s <;> simp [CreditState.isPublished]

lemma stepConn_inv (c : Connection) (op : WriterOp) (h : CreditInv c) :
    CreditInv (stepConn c op) := by
  unfold CreditInv at h ⊢
  cases op with
  | exchangeRx n =>
      simp [stepConn, rdma_exchange_rx, CreditState.remaining]
  | notifyFull =>
      simp [stepConn, recv_notify_buf_full, CreditState.remaining]
      omega
  | addReq e =>
      simpa [stepConn, conn_add_write_request] using h
  | appWrite e =>
      by_cases hp : c.remoteCredit.isPublished = true
      · obtain ⟨n, hn⟩ := (isPublished_iff _).mp hp
        rw [hn] at h
        simp only [CreditState.remaining] at h
        by_cases hle : e.len ≤ n
        · simp [stepConn, conn_app_write, hn, CreditState.isPublished,
            CreditState.remaining, hle]
          omega
        · simp [stepConn, conn_app_write, hn, CreditState.isPublished,
            CreditState.remaining, hle]
          omega
      · simpa [stepConn, conn_app_write, hp] using h
  | extWrite b e k sz =>
      by_cases hp : c.remoteCredit.isPublished = true
      · obtain ⟨n, hn⟩ := (isPublished_iff _).mp hp
        rw [hn] at h
        simp only [CreditState.remaining] at h
        by_cases hle : sz ≤ n
        · simp [stepConn, conn_app_write_external_buffer, hn, CreditState.isPublished,
            CreditState.remaining, hle]
          omega
        · simp [stepConn, conn_app_write_external_buffer, hn, CreditState.isPublished,
            CreditState.remaining, hle]
          omega
      · simpa [stepConn, conn_app_write_external_buffer, hp] using h
  | flushReq =>
      by_cases hp : c.remoteCredit.isPublished = true
      · obtain ⟨n, hn⟩ := (isPublished_iff _).mp hp
        rw [hn] at h
        simp only [CreditState.remaining] at h
        by_cases h1 : batchSize c.pendingBatch ≤ n
        · simp [stepConn, conn_flush_write_request, hn, CreditState.isPublished,
            CreditState.remaining, h1]
          omega
        · simp [stepConn, conn_flush_write_request, hn, CreditState.isPublished,
            CreditState.remaining, h1]
          omega
      · by_cases h1 : batchSize c.pendingBatch ≤ c.remoteCredit.remaining
        · simpa [stepConn, conn_flush_write_request, h1, hp] using h
        · simpa [stepConn, conn_flush_write_request, h1] using h

lemma runConn_inv (ops : List WriterOp) (c : Connection) (h : CreditInv c) :
    CreditInv (runConn c ops) := by
  induction ops generalizing c with
  | nil => simpa [runConn] using h
  | cons op ops ih =>
      simpa [runConn] using ih (stepConn c op) (stepConn_inv c op h)

lemma stepConn_exhausted (c : Connection) (op : WriterOp)
    (hop : op.isExchange = false) (h : c.remoteCredit = .Exhausted) :
    (stepConn c op).remoteCredit = .Exhausted := by
  cases op with
  | exchangeRx n => simp [WriterOp.isExchange] at hop
  | notifyFull => simp [stepConn, recv_notify_buf_full]
  | addReq e => simp [stepConn, conn_add_write_request, h]
  | appWrite e =>
      simp [stepConn, conn_app_write, h, CreditState.isPublished]
  | extWrite b e k sz =>
      simp [stepConn, conn_app_write_external_buffer, h, CreditState.isPublished]
  | flushReq =>
      by_cases h1 : batchSize c.pendingBatch = 0
      · simp [stepConn, conn_flush_write_request, h1, h,
          CreditState.remaining, CreditState.isPublished]
      · simp [stepConn, conn_flush_write_request, h1, h, CreditState.remaining]

lemma runConn_exhausted (ops : List WriterOp) (c : Connection)
    (hops : ∀ op ∈ ops, op.isExchange = false) (h : c.remoteCredit = .Exhausted) :
    (runConn c ops).remoteCredit = .Exhausted := by
  induction ops generalizing c with
  | nil => simpa [runConn] using h
  | cons op ops ih =>
      have h1 := stepConn_exhausted c op (hops op (List.mem_cons_self op ops)) h
      simpa [runConn] using
        ih (stepConn c op) (fun o ho => hops o (List.mem_cons_of_mem op ho)) h1

lemma acquireRecs_spec (p : PoolId) (size : Nat) (l : List BufRec) (h : Nat)
    (l2 : List BufRec) (hacq : acquireRecs p size l = some (h, l2)) :
    ∃ pre r post, l = pre ++ r :: post ∧
      l2 = pre ++ { r with loaned := true } :: post ∧
      r.hid = h ∧ r.origin = p ∧ r.loaned = false ∧ size ≤ r.cap := by
  induction l generalizing l2 with
  | nil => simp [acquireRecs] at hacq
  | cons r rs ih =>
      by_cases hc : r.origin = p ∧ r.loaned = false ∧ size ≤ r.cap
      · simp only [acquireRecs, if_pos hc, Option.some.injEq, Prod.mk.injEq] at hacq
        exact ⟨[], r, rs, rfl, by simp [hacq.2], hacq.1, hc.1, hc.2.1, hc.2.2⟩
      · cases hrec : acquireRecs p size rs with
        | none => simp [acquireRecs, if_neg hc, hrec] at hacq
        | some pr =>
            obtain ⟨h3, rs2⟩ := pr
            simp only [acquireRecs, if_neg hc, hrec, Option.some.injEq,
              Prod.mk.injEq] at hacq
            obtain ⟨hh, hl⟩ := hacq
            subst hh
            obtain ⟨pre, r0, post, he1, he2, he3, he4, he5, he6⟩ := ih rs2 hrec
            exact ⟨r :: pre, r0, post, by simp [he1], by simp [← hl, he2],
              he3, he4, he5, he6⟩

lemma acquireRecs_none_iff (p : PoolId) (size : Nat) (l : List BufRec) :
    acquireRecs p size l = none ↔
      ∀ r ∈ l, ¬(r.origin = p ∧ r.loaned = false ∧ size ≤ r.cap) := by
  induction l with
  | nil => simp [acquireRecs]
  | cons r rs ih =>
      by_cases hc : r.origin = p ∧ r.loaned = false ∧ size ≤ r.cap
      · simp [acquireRecs, if_pos hc, hc]
      · cases hrec : acquireRecs p size rs with
        | none =>
            simp only [acquireRecs, if_neg hc, hrec]
            simp only [List.mem_cons, forall_eq_or_imp]
            exact ⟨fun _ => ⟨hc, ih.mp hrec⟩, fun _ => trivial⟩
        | some pr =>
            simp only [acquireRecs, if_neg hc, hrec]
            constructor
            · intro hfalse
              cases hfalse
            · intro hall
              have : acquireRecs p size rs = none := by
                apply ih.mpr
                intro r2 hr2
                exact hall r2 (List.mem_cons_of_mem r hr2)
              rw [this] at hrec
              cases hrec

lemma releaseRecs_append (p : PoolId) (h : Nat) (pre : List BufRec) (r : BufRec)
    (post : List BufRec) (hpre : ∀ r2 ∈ pre, r2.hid ≠ h) (hr : r.hid = h) :
    releaseRecs p h (pre ++ r :: post) =
      if r.origin = p ∧ r.loaned = true then
        some (pre ++ { r with loaned := false } :: post)
      else none := by
  induction pre with
  | nil =>
      by_cases hc : r.origin = p ∧ r.loaned = true
      · simp [releaseRecs, hr, hc]
      · simp [releaseRecs, hr, hc]
  | cons a pre ih =>
      have ha : a.hid ≠ h := hpre a (List.mem_cons_self a pre)
      have ih2 := ih (fun r2 hr2 => hpre r2 (List.mem_cons_of_mem a hr2))
      by_cases hc : r.origin = p ∧ r.loaned = true
      · simp [releaseRecs, ha, ih2, hc]
      · simp [releaseRecs, ha, ih2, hc]

lemma addAll_eq (c : Connection) (es : List data_entry) :
    addAll c es = { c with pendingBatch := c.pendingBatch ++ es } := by
  induction es generalizing c with
  | nil => simp [addAll]
  | cons e es ih =>
      have h1 : addAll c (e :: es) =
          addAll { c with pendingBatch := c.pendingBatch ++ [e] } es := by
        simp [addAll, conn_add_write_request]
      rw [h1, ih]
      simp

lemma acquireFrom_ok (p : PoolId) (size : Nat) (s : PoolState) (h : Nat)
    (s1 : PoolState) (hacq : acquireFrom p size s = .ok (h, s1)) :
    acquireRecs p size s.recs = some (h, s1.recs) := by
  unfold acquireFrom at hacq
  cases hrec : acquireRecs p size s.recs with
  | none => rw [hrec] at hacq; cases hacq
  | some pr =>
      obtain ⟨h0, rs⟩ := pr
      rw [hrec] at hacq
      simp only [Except.ok.injEq, Prod.mk.injEq] at hacq
      obtain ⟨hh, hs⟩ := hacq
      subst hh
      rw [← hs]

lemma loaned_roundtrip (r : BufRec) (h : r.loaned = false) :
    ({ { r with loaned := true } with loaned := false } : BufRec) = r := by
  cases r with
  | mk hid cap origin loaned => simp_all

/-- C4: for every handle acquired from a pool (get_pool_data_buffer,
get_conn_tx_data_buffer, get_recv_msg_buffer and get_cmd_buffer are the
instances of acquireFrom at the four pool identities), releasing it once
to its originating pool succeeds and restores the pool state; releasing
it a second time, or releasing it to any other pool, fails with
InvalidHandle; and acquisition preserves the identity, capacity and
owner of every record, so the single-owner invariant is preserved. -/
theorem spec_c4 (p : PoolId) (size : Nat) (s : PoolState) (h : Nat) (s1 : PoolState)
    (hnd : (s.recs.map BufRec.hid).Nodup)
    (hacq : acquireFrom p size s = .ok (h, s1)) :
    releaseTo p h s1 = .ok s ∧
    releaseTo p h s = .error .InvalidHandle ∧
    (∀ q, q ≠ p → releaseTo q h s1 = .error .InvalidHandle) ∧
    s1.recs.map (fun r => (r.hid, r.cap, r.origin)) =
      s.recs.map (fun r => (r.hid, r.cap, r.origin)) ∧
    (∀ sz2 st, get_pool_data_buffer sz2 st = acquireFrom PoolId.globalData sz2 st) ∧
    (∀ cid sz2 st, get_conn_tx_data_buffer cid sz2 st =
      acquireFrom (PoolId.connTx cid) sz2 st) ∧
    (∀ cid st, get_recv_msg_buffer cid st = acquireFrom (PoolId.connRx cid) 0 st) ∧
    (∀ cid st, get_cmd_buffer cid st = acquireFrom (PoolId.cmdPool cid) 0 st) ∧
    (∀ h2 st, release_pool_data_buffer h2 st = releaseTo PoolId.globalData h2 st) ∧
    (∀ cid h2 st, release_conn_tx_data_buffer cid h2 st =
      releaseTo (PoolId.connTx cid) h2 st) ∧
    (∀ cid h2 st, release_conn_rx_data_buffer cid h2 st =
      releaseTo (PoolId.connRx cid) h2 st) ∧
    (∀ cid h2 st, release_cmd_buffer cid h2 st = releaseTo (PoolId.cmdPool cid) h2 st) := by
  have hrec := acquireFrom_ok p size s h s1 hacq
  obtain ⟨pre, r, post, he1, he2, he3, he4, he5, he6⟩ :=
    acquireRecs_spec p size s.recs h s1.recs hrec
  have hpre : ∀ r2 ∈ pre, r2.hid ≠ h := by
    intro r2 hr2 heq
    rw [he1, List.map_append, List.nodup_append] at hnd
    apply hnd.2.2 (List.mem_map_of_mem BufRec.hid hr2)
    rw [heq, ← he3]
    exact List.mem_map_of_mem BufRec.hid (List.mem_cons_self r post)
  have hr2 : ({ r with loaned := true } : BufRec).hid = h := by simpa using he3
  refine ⟨?_, ?_, ?_, ?_, fun _ _ => rfl, fun _ _ _ => rfl, fun _ _ => rfl,
    fun _ _ => rfl, fun _ _ => rfl, fun _ _ _ => rfl, fun _ _ _ => rfl,
    fun _ _ _ => rfl⟩
  · unfold releaseTo
    rw [he2, releaseRecs_append p h pre _ post hpre hr2,
      if_pos (by simp [he4] : ({ r with loaned := true } : BufRec).origin = p ∧
        ({ r with loaned := true } : BufRec).loaned = true),
      loaned_roundtrip r he5, ← he1]
  · unfold releaseTo
    rw [he1, releaseRecs_append p h pre r post hpre he3,
      if_neg (fun hx => by rw [he5] at hx; cases hx.2)]
  · intro q hq
    unfold releaseTo
    rw [he2, releaseRecs_append q h pre _ post hpre hr2,
      if_neg (fun hx => hq (by simpa [he4] using hx.1.symm))]
  · rw [he1, he2]
    simp

/-- Witness for C4 at a concrete two-handle pool: handle 7 acquired from
the global pool, released back once, released twice, and released to a
connection TX pool. -/
theorem spec_c4_witness :
    releaseTo PoolId.globalData 7
        ⟨[⟨7, 8, PoolId.globalData, true⟩, ⟨9, 4, PoolId.connTx 1, false⟩]⟩ =
      .ok ⟨[⟨7, 8, PoolId.globalData, false⟩, ⟨9, 4, PoolId.connTx 1, false⟩]⟩ ∧
    releaseTo PoolId.globalData 7
        ⟨[⟨7, 8, PoolId.globalData, false⟩, ⟨9, 4, PoolId.connTx 1, false⟩]⟩ =
      .error .InvalidHandle ∧
    releaseTo (PoolId.connTx 1) 7
        ⟨[⟨7, 8, PoolId.globalData, true⟩, ⟨9, 4, PoolId.connTx 1, false⟩]⟩ =
      .error .InvalidHandle := by
  have h := spec_c4 PoolId.globalData 5
    ⟨[⟨7, 8, PoolId.globalData, false⟩, ⟨9, 4, PoolId.connTx 1, false⟩]⟩ 7
    ⟨[⟨7, 8, PoolId.globalData, true⟩, ⟨9, 4, PoolId.connTx 1, false⟩]⟩
    (by decide) rfl
  exact ⟨h.1, h.2.1, h.2.2.1 (PoolId.connTx 1) (by decide)⟩

/-- C7: get_pool_data_buffer either returns a handle of a free record of
the shared global pool whose capacity is at least the requested size —
never a smaller one — or fails with ResourceExhausted, and it fails with
ResourceExhausted exactly when no free record of the global pool has
sufficient capacity. -/
theorem spec_c7 (size : Nat) (s : PoolState) :
    (∀ h s1, get_pool_data_buffer size s = .ok (h, s1) →
      ∃ r, r ∈ s.recs ∧ r.hid = h ∧ r.origin = PoolId.globalData ∧
        r.loaned = false ∧ size ≤ r.cap) ∧
    (get_pool_data_buffer size s = .error .ResourceExhausted ↔
      ∀ r ∈ s.recs, r.origin = PoolId.globalData → r.loaned = false →
        r.cap < size) := by
  constructor
  · intro h s1 hok
    have hrec := acquireFrom_ok PoolId.globalData size s h s1 hok
    obtain ⟨pre, r, post, he1, _, he3, he4, he5, he6⟩ :=
      acquireRecs_spec PoolId.globalData size s.recs h s1.recs hrec
    exact ⟨r, by rw [he1]; simp, he3, he4, he5, he6⟩
  · unfold get_pool_data_buffer acquireFrom
    cases hrec : acquireRecs PoolId.globalData size s.recs with
    | some pr =>
        simp only [hrec]
        constructor
        · intro hfalse; cases hfalse
        · intro hall
          have hnone : acquireRecs PoolId.globalData size s.recs = none := by
            apply (acquireRecs_none_iff PoolId.globalData size s.recs).mpr
            intro r hr hcond
            exact absurd (hall r hr hcond.1 hcond.2.1)
              (Nat.not_lt.mpr hcond.2.2)
          rw [hnone] at hrec
          cases hrec
    | none =>
        simp only [hrec]
        constructor
        · intro _
          have hall := (acquireRecs_none_iff PoolId.globalData size s.recs).mp hrec
          intro r hr h1 h2
          by_contra hcap
          exact hall r hr ⟨h1, h2, Nat.le_of_not_lt hcap⟩
        · intro _; trivial

/-- Witness for C7: a pool whose only sufficient global record has
capacity 8 serves a 5-byte request with that record, and a pool whose
free global records are all smaller than the request fails with
ResourceExhausted. -/
theorem spec_c7_witness :
    (∃ r, r ∈ [(⟨3, 2, PoolId.globalData, false⟩ : BufRec),
        ⟨7, 8, PoolId.globalData, false⟩] ∧ r.hid = 7 ∧
      r.origin = PoolId.globalData ∧ r.loaned = false ∧ 5 ≤ r.cap) ∧
    get_pool_data_buffer 9
        ⟨[⟨3, 2, PoolId.globalData, false⟩, ⟨7, 8, PoolId.globalData, false⟩]⟩ =
      .error .ResourceExhausted := by
  constructor
  · exact (spec_c7 5
      ⟨[⟨3, 2, PoolId.globalData, false⟩, ⟨7, 8, PoolId.globalData, false⟩]⟩).1
      7 ⟨[⟨3, 2, PoolId.globalData, false⟩, ⟨7, 8, PoolId.globalData, true⟩]⟩ rfl
  · exact (spec_c7 9
      ⟨[⟨3, 2, PoolId.globalData, false⟩, ⟨7, 8, PoolId.globalData, false⟩]⟩).2.mpr
      (by decide)

/-- C1: along every event sequence from a fresh connection, the bytes
written through conn_app_write, conn_app_write_external_buffer and
flushed batches since the last successful rdma_exchange_rx never exceed
the capacity most recently published by the peer; and any write whose
length exceeds the remaining credit fails with CreditExhausted, leaving
the connection — its credit and the record of the peer RX region —
unchanged. -/
theorem spec_c1 (nd ty : Nat) (fl : Bool) (ops : List WriterOp) (c : Connection)
    (hc : c = runConn (init_connection nd ty fl) ops)
    (e : data_entry) (b k sz : Nat) :
    c.bytesSinceExchange ≤ c.lastPublished ∧
    (c.remoteCredit.remaining < e.len →
      conn_app_write c e = (.err .CreditExhausted, c)) ∧
    (c.remoteCredit.remaining < sz →
      conn_app_write_external_buffer c b e k sz = (.err .CreditExhausted, c)) ∧
    (c.remoteCredit.remaining < batchSize c.pendingBatch →
      conn_flush_write_request c = (.err .CreditExhausted, c)) := by
  have hinv : CreditInv c := by
    rw [hc]
    exact runConn_inv ops (init_connection nd ty fl)
      (by simp [CreditInv, init_connection, CreditState.remaining])
  refine ⟨?_, ?_, ?_, ?_⟩
  · unfold CreditInv at hinv
    omega
  · intro hlt
    have hcond : ¬(c.remoteCredit.isPublished = true ∧
        e.len ≤ c.remoteCredit.remaining) := fun hx => absurd hx.2 (by omega)
    simp [conn_app_write, hcond]
  · intro hlt
    have hcond : ¬(c.remoteCredit.isPublished = true ∧
        sz ≤ c.remoteCredit.remaining) := fun hx => absurd hx.2 (by omega)
    simp [conn_app_write_external_buffer, hcond]
  · intro hlt
    have hcond : ¬ batchSize c.pendingBatch ≤ c.remoteCredit.remaining := by omega
    simp [conn_flush_write_request, hcond]

/-- Witness for C1 after an exchange publishing 4 bytes and a 9-byte
batch enqueue: the accounting bound holds, and a 5-byte immediate write,
a 5-byte zero-copy write and the 9-byte flush all fail with
CreditExhausted. -/
theorem spec_c1_witness :
    (runConn (init_connection 0 0 false)
        [WriterOp.exchangeRx 4, WriterOp.addReq ⟨0, 9, 0, 0⟩]).bytesSinceExchange ≤
      (runConn (init_connection 0 0 false)
        [WriterOp.exchangeRx 4, WriterOp.addReq ⟨0, 9, 0, 0⟩]).lastPublished ∧
    (conn_app_write (runConn (init_connection 0 0 false)
        [WriterOp.exchangeRx 4, WriterOp.addReq ⟨0, 9, 0, 0⟩]) ⟨0, 5, 0, 0⟩).1 =
      .err .CreditExhausted ∧
    (conn_app_write_external_buffer (runConn (init_connection 0 0 false)
        [WriterOp.exchangeRx 4, WriterOp.addReq ⟨0, 9, 0, 0⟩]) 0 ⟨0, 5, 0, 0⟩ 0 5).1 =
      .err .CreditExhausted ∧
    (conn_flush_write_request (runConn (init_connection 0 0 false)
        [WriterOp.exchangeRx 4, WriterOp.addReq ⟨0, 9, 0, 0⟩])).1 =
      .err .CreditExhausted := by
  have h := spec_c1 0 0 false [WriterOp.exchangeRx 4, WriterOp.addReq ⟨0, 9, 0, 0⟩]
    _ rfl ⟨0, 5, 0, 0⟩ 0 0 5
  refine ⟨h.1, ?_, ?_, ?_⟩
  · rw [h.2.1 (by decide)]
  · rw [h.2.2.1 (by decide)]
  · rw [h.2.2.2 (by decide)]

/-- C2: entries enqueued with conn_add_write_request accumulate in add
order; conn_flush_write_request either posts the whole pending batch to
the peer RX region in exactly that order and clears the batch — when the
aggregate size fits the remaining credit — or, when the aggregate
exceeds the remaining credit, fails with CreditExhausted posting nothing
and leaving batch and credit unchanged. -/
theorem spec_c2 (c0 : Connection) (es : List data_entry) (c1 : Connection)
    (hadd : c1 = addAll c0 es) :
    c1.pendingBatch = c0.pendingBatch ++ es ∧
    c1.peerRx = c0.peerRx ∧
    c1.remoteCredit = c0.remoteCredit ∧
    (batchSize c1.pendingBatch ≤ c1.remoteCredit.remaining →
      (conn_flush_write_request c1).1 = .ok ∧
      (conn_flush_write_request c1).2.peerRx =
        c1.peerRx ++ (c0.pendingBatch ++ es) ∧
      (conn_flush_write_request c1).2.pendingBatch = []) ∧
    (c1.remoteCredit.remaining < batchSize c1.pendingBatch →
      conn_flush_write_request c1 = (.err .CreditExhausted, c1)) := by
  have hb : c1.pendingBatch = c0.pendingBatch ++ es := by rw [hadd, addAll_eq]
  have hrx : c1.peerRx = c0.peerRx := by rw [hadd, addAll_eq]
  have hcr : c1.remoteCredit = c0.remoteCredit := by rw [hadd, addAll_eq]
  refine ⟨hb, hrx, hcr, ?_, ?_⟩
  · intro hle
    rw [hb] at hle
    by_cases hp : c1.remoteCredit.isPublished = true
    · simp [conn_flush_write_request, hle, hp, hb]
    · simp [conn_flush_write_request, hle, hp, hb]
  · intro hlt
    have hcond : ¬ batchSize c1.pendingBatch ≤ c1.remoteCredit.remaining := by omega
    simp [conn_flush_write_request, hcond]

/-- Witness for C2: after enqueueing entries of 3 and 4 bytes on a
connection with 10 bytes of published credit, the flush posts both in
order and clears the batch; with only 2 bytes of credit the same flush
fails with CreditExhausted and changes nothing. -/
theorem spec_c2_witness :
    (conn_flush_write_request
        (addAll { remoteCredit := CreditState.Published 10 }
          [⟨0, 3, 0, 0⟩, ⟨1, 4, 0, 0⟩])).1 = .ok ∧
    (conn_flush_write_request
        (addAll { remoteCredit := CreditState.Published 10 }
          [⟨0, 3, 0, 0⟩, ⟨1, 4, 0, 0⟩])).2.peerRx =
      [⟨0, 3, 0, 0⟩, ⟨1, 4, 0, 0⟩] ∧
    (conn_flush_write_request
        (addAll { remoteCredit := CreditState.Published 10 }
          [⟨0, 3, 0, 0⟩, ⟨1, 4, 0, 0⟩])).2.pendingBatch = [] ∧
    conn_flush_write_request
        (addAll { remoteCredit := CreditState.Published 2 }
          [⟨0, 3, 0, 0⟩, ⟨1, 4, 0, 0⟩]) =
      (.err .CreditExhausted,
        addAll { remoteCredit := CreditState.Published 2 }
          [⟨0, 3, 0, 0⟩, ⟨1, 4, 0, 0⟩]) := by
  have h1 := spec_c2 { remoteCredit := CreditState.Published 10 }
    [⟨0, 3, 0, 0⟩, ⟨1, 4, 0, 0⟩] _ rfl
  have h2 := spec_c2 { remoteCredit := CreditState.Published 2 }
    [⟨0, 3, 0, 0⟩, ⟨1, 4, 0, 0⟩] _ rfl
  obtain ⟨-, -, -, hfit, -⟩ := h1
  obtain ⟨-, -, -, -, hover⟩ := h2
  have hfit2 := hfit (by decide)
  refine ⟨hfit2.1, ?_, hfit2.2.2, hover (by decide)⟩
  · rw [hfit2.2.1]
    decide

/-- C3: after the buffer-full notice from the peer is received, the
credit direction is Exhausted and stays Exhausted across any event
sequence containing no completed exchange, every immediate and zero-copy
write in that interval fails with CreditExhausted leaving the connection
unchanged, a flush of any batch with positive aggregate size fails the
same way, and a subsequent rdma_exchange_rx republishes the capacity the
peer announces. -/
theorem spec_c3 (c : Connection) (ops : List WriterOp)
    (hops : ∀ op ∈ ops, op.isExchange = false)
    (c1 : Connection) (hc1 : c1 = runConn (recv_notify_buf_full c) ops)
    (e : data_entry) (b k sz n : Nat) :
    c1.remoteCredit = .Exhausted ∧
    conn_app_write c1 e = (.err .CreditExhausted, c1) ∧
    conn_app_write_external_buffer c1 b e k sz = (.err .CreditExhausted, c1) ∧
    (0 < batchSize c1.pendingBatch →
      conn_flush_write_request c1 = (.err .CreditExhausted, c1)) ∧
    (rdma_exchange_rx c1 n).2.remoteCredit = .Published n := by
  have hex : c1.remoteCredit = .Exhausted := by
    rw [hc1]
    exact runConn_exhausted ops _ hops (by simp [recv_notify_buf_full])
  refine ⟨hex, ?_, ?_, ?_, ?_⟩
  · simp [conn_app_write, hex, CreditState.isPublished]
  · simp [conn_app_write_external_buffer, hex, CreditState.isPublished]
  · intro hpos
    have hcond : ¬ batchSize c1.pendingBatch ≤ c1.remoteCredit.remaining := by
      rw [hex]
      simp only [CreditState.remaining]
      omega
    simp [conn_flush_write_request, hcond]
  · simp [rdma_exchange_rx]

/-- Witness for C3: after the buffer-full notice and a 3-byte enqueue
(no exchange in between), an immediate write, a zero-copy write and the
flush all fail with CreditExhausted, and an exchange publishing 6 bytes
restores Published credit. -/
theorem spec_c3_witness :
    (runConn (recv_notify_buf_full { })
        [WriterOp.addReq ⟨0, 3, 0, 0⟩]).remoteCredit = .Exhausted ∧
    (conn_app_write (runConn (recv_notify_buf_full { })
        [WriterOp.addReq ⟨0, 3, 0, 0⟩]) ⟨0, 1, 0, 0⟩).1 = .err .CreditExhausted ∧
    (conn_app_write_external_buffer (runConn (recv_notify_buf_full { })
        [WriterOp.addReq ⟨0, 3, 0, 0⟩]) 0 ⟨0, 1, 0, 0⟩ 0 1).1 =
      .err .CreditExhausted ∧
    (conn_flush_write_request (runConn (recv_notify_buf_full { })
        [WriterOp.addReq ⟨0, 3, 0, 0⟩])).1 = .err .CreditExhausted ∧
    (rdma_exchange_rx (runConn (recv_notify_buf_full { })
        [WriterOp.addReq ⟨0, 3, 0, 0⟩]) 6).2.remoteCredit = .Published 6 := by
  have h := spec_c3 { } [WriterOp.addReq ⟨0, 3, 0, 0⟩] (by decide) _ rfl
    ⟨0, 1, 0, 0⟩ 0 0 1 6
  refine ⟨h.1, ?_, ?_, ?_, h.2.2.2.2⟩
  · rw [h.2.1]
  · rw [h.2.2.1]
  · rw [h.2.2.2.1 (by decide)]

/-- C5 counterexample: the header declares conn_disconnect with return
type void (src/util/rdma/connection.h line 46), so no DisconnectTimeout
value can be reported to the caller as the result of the call; the claim
fails at the concrete declaration conn_disconnect. -/
theorem spec_c5_counterexample :
    (headerReturnType HFun.conn_disconnect).reportsToCaller = false := by
  decide

/-- C5 (amended): with wait_flag set and a positive close-wait timeout
smaller than the drain time of the outstanding writes, conn_disconnect
times out and proceeds to forced teardown — the timeout outcome is
recorded internally, not returned to the caller, since the declaration
returns void — and a subsequent destroy_connection succeeds. -/
theorem spec_c5 (c : Connection) (waitFlag : Bool) (drainNs : Int)
    (hw : waitFlag = true) (h0 : 0 < c.closeWaitTimeoutNs)
    (ht : c.closeWaitTimeoutNs < drainNs) :
    (conn_disconnect c waitFlag drainNs).1 = .timedOut ∧
    (conn_disconnect c waitFlag drainNs).2.qpDestroyed = true ∧
    destroy_connection (conn_disconnect c waitFlag drainNs).2 = true ∧
    (headerReturnType HFun.conn_disconnect).reportsToCaller = false := by
  subst hw
  refine ⟨?_, ?_, ?_, rfl⟩
  · simp [conn_disconnect, h0, ht]
  · simp [conn_disconnect, h0, ht]
  · simp [conn_disconnect, destroy_connection, h0, ht]

/-- Witness for C5 (amended) at a connection with a 5 ns close-wait
timeout and writes that would need 99 ns to drain. -/
theorem spec_c5_witness :
    (conn_disconnect { closeWaitTimeoutNs := 5 } true 99).1 = .timedOut ∧
    destroy_connection (conn_disconnect { closeWaitTimeoutNs := 5 } true 99).2 =
      true := by
  have h := spec_c5 { closeWaitTimeoutNs := 5 } true 99 rfl (by decide) (by decide)
  exact ⟨h.1, h.2.2.1⟩

/-- C6: conn_app_write_external_buffer performs exactly the credit
accounting of conn_app_write — when the entry length equals the given
size, both calls return the same result kind, the zero-copy call
decrements the remaining credit by the written length on success, and
its post-state is the post-state of conn_app_write with the TX region
left untouched (no copy into the internal TX region). -/
theorem spec_c6 (c : Connection) (b : Nat) (e : data_entry) (k sz : Nat)
    (hsz : e.len = sz) :
    (conn_app_write_external_buffer c b e k sz).1 = (conn_app_write c e).1 ∧
    (conn_app_write_external_buffer c b e k sz).2 =
      { (conn_app_write c e).2 with txRegion := c.txRegion } ∧
    ((conn_app_write_external_buffer c b e k sz).1 = .ok →
      (conn_app_write_external_buffer c b e k sz).2.remoteCredit.remaining =
        c.remoteCredit.remaining - sz) := by
  subst hsz
  by_cases hc : c.remoteCredit.isPublished = true ∧ e.len ≤ c.remoteCredit.remaining
  · obtain ⟨hp, hle⟩ := hc
    obtain ⟨n, hn⟩ := (isPublished_iff _).mp hp
    rw [hn] at hle
    simp only [CreditState.remaining] at hle
    simp [conn_app_write, conn_app_write_external_buffer, hn,
      CreditState.isPublished, CreditState.remaining, hle]
  · simp [conn_app_write, conn_app_write_external_buffer, hc]

/-- Witness for C6 on a connection with 10 bytes of published credit and
a 3-byte entry. -/
theorem spec_c6_witness :
    (conn_app_write_external_buffer { remoteCredit := CreditState.Published 10 }
        0 ⟨0, 3, 0, 0⟩ 0 3).1 =
      (conn_app_write { remoteCredit := CreditState.Published 10 } ⟨0, 3, 0, 0⟩).1 ∧
    (conn_app_write_external_buffer { remoteCredit := CreditState.Published 10 }
        0 ⟨0, 3, 0, 0⟩ 0 3).2.remoteCredit.remaining = 7 := by
  have h := spec_c6 { remoteCredit := CreditState.Published 10 } 0 ⟨0, 3, 0, 0⟩ 0 3 rfl
  refine ⟨h.1, ?_⟩
  rw [h.2.2 (by decide)]
  decide

/-- C8: del_conn_from_server always reports success, removing an absent
member leaves the active set unchanged (a no-op, not an error), and
deleting twice in a row leaves the active set exactly as deleting
once. -/
theorem spec_c8 (cid : Nat) (server : List Nat) :
    (del_conn_from_server cid server).1 = .ok ∧
    (cid ∉ server → (del_conn_from_server cid server).2 = server) ∧
    (del_conn_from_server cid (del_conn_from_server cid server).2).2 =
      (del_conn_from_server cid server).2 ∧
    (del_conn_from_server cid (del_conn_from_server cid server).2).1 = .ok := by
  refine ⟨rfl, ?_, ?_, rfl⟩
  · intro hmem
    simp only [del_conn_from_server]
    apply List.filter_eq_self.mpr
    intro a ha
    simp only [bne_iff_ne, ne_eq]
    exact fun he => hmem (he ▸ ha)
  · simp only [del_conn_from_server]
    apply List.filter_eq_self.mpr
    intro a ha
    exact (List.mem_filter.mp ha).2

/-- Witness for C8: deleting connection 3 from the active set [1, 2]. -/
theorem spec_c8_witness :
    (del_conn_from_server 3 [1, 2]).1 = .ok ∧
    (del_conn_from_server 3 [1, 2]).2 = [1, 2] := by
  have h := spec_c8 3 [1, 2]
  exact ⟨h.1, h.2.1 (by decide)⟩

lemma conn_app_write_ok_iff (c : Connection) (ent : data_entry) :
    (conn_app_write c ent).1 = .ok ↔
      (c.remoteCredit.isPublished = true ∧
        ent.len ≤ c.remoteCredit.remaining) := by
  by_cases hc : c.remoteCredit.isPublished = true ∧
      ent.len ≤ c.remoteCredit.remaining <;>
    simp [conn_app_write, hc]

lemma conn_app_write_not_ok (c : Connection) (ent : data_entry)
    (h : ¬ (conn_app_write c ent).1 = .ok) :
    (conn_app_write c ent).1 = .err .CreditExhausted := by
  by_cases hc : c.remoteCredit.isPublished = true ∧
      ent.len ≤ c.remoteCredit.remaining <;>
    simp [conn_app_write, hc] at h ⊢

lemma ext_buffer_not_ok (c : Connection) (b : Nat) (ent : data_entry)
    (k sz : Nat)
    (h : ¬ (conn_app_write_external_buffer c b ent k sz).1 = .ok) :
    (conn_app_write_external_buffer c b ent k sz).1 = .err .CreditExhausted := by
  by_cases hc : c.remoteCredit.isPublished = true ∧
      sz ≤ c.remoteCredit.remaining <;>
    simp [conn_app_write_external_buffer, hc] at h ⊢

lemma flush_not_ok (c : Connection)
    (h : ¬ (conn_flush_write_request c).1 = .ok) :
    (conn_flush_write_request c).1 = .err .CreditExhausted := by
  by_cases h1 : batchSize c.pendingBatch ≤ c.remoteCredit.remaining
  · by_cases hp : c.remoteCredit.isPublished = true <;>
      simp [conn_flush_write_request, h1, hp] at h ⊢
  · simp [conn_flush_write_request, h1]

lemma conn_app_write_timed_false (c : Connection) (ent : data_entry) :
    conn_app_write_timed c ent false = conn_app_write c ent := by
  by_cases hok : (conn_app_write c ent).1 = .ok <;>
    simp [conn_app_write_timed, hok]

lemma ext_buffer_timed_false (c : Connection) (b : Nat) (ent : data_entry)
    (k sz : Nat) :
    conn_app_write_external_buffer_timed c b ent k sz false =
      conn_app_write_external_buffer c b ent k sz := by
  by_cases hok : (conn_app_write_external_buffer c b ent k sz).1 = .ok <;>
    simp [conn_app_write_external_buffer_timed, hok]

lemma flush_timed_false (c : Connection) :
    conn_flush_write_request_timed c false = conn_flush_write_request c := by
  by_cases hok : (conn_flush_write_request c).1 = .ok <;>
    simp [conn_flush_write_request_timed, hok]

/-- C9 counterexample: conn_disconnect is one of the disconnect calls of
the public interface, and its declared return type in the header is
void, so its caller cannot tell from the result of the call which error
occurred; the claim fails at that concrete operation. -/
theorem spec_c9_counterexample :
    headerReturnType HFun.conn_disconnect = CType.void ∧
    CType.void.reportsToCaller = false := by
  decide

/-- C9 (amended): every failing operation of the public interface that
can return a result returns a distinguishable kind from the error
taxonomy rather than a generic flag, so the caller can tell from the
result of each acquisition, write, exchange and bind call which error
occurred: acquisition fails only with ResourceExhausted and release only
with InvalidHandle; a write or flush fails with CreditExhausted exactly
when credit is insufficient and with Timeout exactly when the credit
check passed but the bounded wait expired; the exchange fails with
Timeout exactly when the peer command does not arrive in time;
queue-pair binding fails only with BindError and TX resizing only with
InvalidSize; conn_disconnect, declared void in the header, returns
nothing, so no error is reported from that call. -/
theorem spec_c9 :
    (∀ p size s e, acquireFrom p size s = .error e → e = .ResourceExhausted) ∧
    (∀ p h s e, releaseTo p h s = .error e → e = .InvalidHandle) ∧
    (∀ c ent t e, (conn_app_write_timed c ent t).1 = .err e →
      e = .CreditExhausted ∨ e = .Timeout) ∧
    (∀ c ent t, (conn_app_write_timed c ent t).1 = .err .CreditExhausted ↔
      (conn_app_write c ent).1 = .err .CreditExhausted) ∧
    (∀ c ent t, (conn_app_write_timed c ent t).1 = .err .Timeout ↔
      ((conn_app_write c ent).1 = .ok ∧ t = true)) ∧
    (∀ c b ent k sz t e,
      (conn_app_write_external_buffer_timed c b ent k sz t).1 = .err e →
      e = .CreditExhausted ∨ e = .Timeout) ∧
    (∀ c b ent k sz t,
      (conn_app_write_external_buffer_timed c b ent k sz t).1 =
          .err .CreditExhausted ↔
        (conn_app_write_external_buffer c b ent k sz).1 =
          .err .CreditExhausted) ∧
    (∀ c b ent k sz t,
      (conn_app_write_external_buffer_timed c b ent k sz t).1 = .err .Timeout ↔
        ((conn_app_write_external_buffer c b ent k sz).1 = .ok ∧ t = true)) ∧
    (∀ c t e, (conn_flush_write_request_timed c t).1 = .err e →
      e = .CreditExhausted ∨ e = .Timeout) ∧
    (∀ c t, (conn_flush_write_request_timed c t).1 = .err .CreditExhausted ↔
      (conn_flush_write_request c).1 = .err .CreditExhausted) ∧
    (∀ c t, (conn_flush_write_request_timed c t).1 = .err .Timeout ↔
      ((conn_flush_write_request c).1 = .ok ∧ t = true)) ∧
    (∀ c reply e, (rdma_exchange_rx_timed c reply).1 = .err e →
      e = .Timeout) ∧
    (∀ c reply, (rdma_exchange_rx_timed c reply).1 = .err .Timeout ↔
      reply = none) ∧
    (∀ c i e, (create_conn_qp c i).1 = .err e → e = .BindError) ∧
    (∀ c len avail e, (rdma_adjust_txBuf c len avail).1 = .err e →
      e = .InvalidSize) ∧
    headerReturnType HFun.conn_disconnect = CType.void := by
  refine ⟨?_, ?_, ?_, ?_, ?_, ?_, ?_, ?_, ?_, ?_, ?_, ?_, ?_, ?_, ?_, rfl⟩
  · intro p size s e he
    unfold acquireFrom at he
    cases hrec : acquireRecs p size s.recs with
    | some pr => rw [hrec] at he; cases he
    | none =>
        rw [hrec] at he
        cases he
        rfl
  · intro p h s e he
    unfold releaseTo at he
    cases hrec : releaseRecs p h s.recs with
    | some rs => rw [hrec] at he; cases he
    | none =>
        rw [hrec] at he
        cases he
        rfl
  · intro c ent t e he
    by_cases hok : (conn_app_write c ent).1 = .ok
    · cases t
      · simp [conn_app_write_timed, hok] at he
      · simp [conn_app_write_timed, hok] at he
        exact Or.inr he.symm
    · have hce := conn_app_write_not_ok c ent hok
      simp [conn_app_write_timed, hok, hce] at he
      exact Or.inl he.symm
  · intro c ent t
    by_cases hok : (conn_app_write c ent).1 = .ok
    · cases t <;> simp [conn_app_write_timed, hok]
    · have hce := conn_app_write_not_ok c ent hok
      cases t <;> simp [conn_app_write_timed, hok, hce]
  · intro c ent t
    by_cases hok : (conn_app_write c ent).1 = .ok
    · cases t <;> simp [conn_app_write_timed, hok]
    · have hce := conn_app_write_not_ok c ent hok
      cases t <;> simp [conn_app_write_timed, hok, hce]
  · intro c b ent k sz t e he
    by_cases hok : (conn_app_write_external_buffer c b ent k sz).1 = .ok
    · cases t
      · simp [conn_app_write_external_buffer_timed, hok] at he
      · simp [conn_app_write_external_buffer_timed, hok] at he
        exact Or.inr he.symm
    · have hce := ext_buffer_not_ok c b ent k sz hok
      simp [conn_app_write_external_buffer_timed, hok, hce] at he
      exact Or.inl he.symm
  · intro c b ent k sz t
    by_cases hok : (conn_app_write_external_buffer c b ent k sz).1 = .ok
    · cases t <;> simp [conn_app_write_external_buffer_timed, hok]
    · have hce := ext_buffer_not_ok c b ent k sz hok
      cases t <;> simp [conn_app_write_external_buffer_timed, hok, hce]
  · intro c b ent k sz t
    by_cases hok : (conn_app_write_external_buffer c b ent k sz).1 = .ok
    · cases t <;> simp [conn_app_write_external_buffer_timed, hok]
    · have hce := ext_buffer_not_ok c b ent k sz hok
      cases t <;> simp [conn_app_write_external_buffer_timed, hok, hce]
  · intro c t e he
    by_cases hok : (conn_flush_write_request c).1 = .ok
    · cases t
      · simp [conn_flush_write_request_timed, hok] at he
      · simp [conn_flush_write_request_timed, hok] at he
        exact Or.inr he.symm
    · have hce := flush_not_ok c hok
      simp [conn_flush_write_request_timed, hok, hce] at he
      exact Or.inl he.symm
  · intro c t
    by_cases hok : (conn_flush_write_request c).1 = .ok
    · cases t <;> simp [conn_flush_write_request_timed, hok]
    · have hce := flush_not_ok c hok
      cases t <;> simp [conn_flush_write_request_timed, hok, hce]
  · intro c t
    by_cases hok : (conn_flush_write_request c).1 = .ok
    · cases t <;> simp [conn_flush_write_request_timed, hok]
    · have hce := flush_not_ok c hok
      cases t <;> simp [conn_flush_write_request_timed, hok, hce]
  · intro c reply e he
    cases reply with
    | none =>
        simp [rdma_exchange_rx_timed] at he
        exact he.symm
    | some n => simp [rdma_exchange_rx_timed, rdma_exchange_rx] at he
  · intro c reply
    cases reply with
    | none => simp [rdma_exchange_rx_timed]
    | some n => simp [rdma_exchange_rx_timed, rdma_exchange_rx]
  · intro c i e he
    by_cases hb : c.qpBound
    · simp [create_conn_qp, hb] at he
      exact he.symm
    · simp [create_conn_qp, hb] at he
  · intro c len avail e he
    by_cases hl : avail < len
    · simp [rdma_adjust_txBuf, hl] at he
      exact he.symm
    · simp [rdma_adjust_txBuf, hl] at he

/-- Witness for C9 (amended) at concrete failing calls: an empty pool,
an empty release target, each write variant failing once for
insufficient credit and once for an expired send bound, an exchange
whose peer command never arrives, a second binding of a bound queue
pair, and a resize past the backing capacity. -/
theorem spec_c9_witness :
    acquireFrom PoolId.globalData 1 ⟨[]⟩ = .error .ResourceExhausted ∧
    RdmaError.ResourceExhausted = RdmaError.ResourceExhausted ∧
    releaseTo PoolId.globalData 0 ⟨[]⟩ = .error .InvalidHandle ∧
    RdmaError.InvalidHandle = RdmaError.InvalidHandle ∧
    (conn_app_write_timed { } ⟨0, 1, 0, 0⟩ false).1 = .err .CreditExhausted ∧
    (conn_app_write_timed { remoteCredit := CreditState.Published 5 }
        ⟨0, 1, 0, 0⟩ true).1 = .err .Timeout ∧
    (conn_app_write_external_buffer_timed { } 0 ⟨0, 1, 0, 0⟩ 0 1 false).1 =
      .err .CreditExhausted ∧
    (conn_app_write_external_buffer_timed
        { remoteCredit := CreditState.Published 5 } 0 ⟨0, 1, 0, 0⟩ 0 1 true).1 =
      .err .Timeout ∧
    (conn_flush_write_request_timed { pendingBatch := [⟨0, 1, 0, 0⟩] } false).1 =
      .err .CreditExhausted ∧
    (conn_flush_write_request_timed { remoteCredit := CreditState.Published 5 }
        true).1 = .err .Timeout ∧
    (rdma_exchange_rx_timed { } none).1 = .err .Timeout ∧
    (create_conn_qp { qpBound := true } 0).1 = .err .BindError ∧
    (rdma_adjust_txBuf { } 1 0).1 = .err .InvalidSize := by
  obtain ⟨h1, h2, h3, h4, h5, h6, h7, h8, h9, h10, h11, h12, h13, h14, h15, h16⟩ :=
    spec_c9
  refine ⟨rfl, ?_, rfl, ?_, ?_, ?_, ?_, ?_, ?_, ?_, ?_, rfl, rfl⟩
  · exact h1 PoolId.globalData 1 ⟨[]⟩ .ResourceExhausted rfl
  · exact h2 PoolId.globalData 0 ⟨[]⟩ .InvalidHandle rfl
  · exact (h4 { } ⟨0, 1, 0, 0⟩ false).mpr (by decide)
  · exact (h5 { remoteCredit := CreditState.Published 5 } ⟨0, 1, 0, 0⟩ true).mpr
      ⟨by decide, rfl⟩
  · exact (h7 { } 0 ⟨0, 1, 0, 0⟩ 0 1 false).mpr (by decide)
  · exact (h8 { remoteCredit := CreditState.Published 5 } 0 ⟨0, 1, 0, 0⟩ 0 1
      true).mpr ⟨by decide, rfl⟩
  · exact (h10 { pendingBatch := [⟨0, 1, 0, 0⟩] } false).mpr (by decide)
  · exact (h11 { remoteCredit := CreditState.Published 5 } true).mpr
      ⟨by decide, rfl⟩
  · exact (h13 { } none).mpr rfl

/-- C10: the five configuration operations are total — they accept every
connection, every context value and every signed 64-bit style timeout
value, including zero and negatives, record it, and have no failure
case; their header declarations all return void, so no error is
observable at the public interface. -/
theorem spec_c10 (c : Connection) (ctx : Nat) (t1 t2 t3 : Int) :
    (set_conn_context c ctx).connContext = some ctx ∧
    (set_loop_exchange c).loopExchange = true ∧
    (set_send_timeout_ns c t1).sendTimeoutNs = t1 ∧
    (set_recv_timeout_ns c t2).recvTimeoutNs = t2 ∧
    (set_close_wait_timeout_ns c t3).closeWaitTimeoutNs = t3 ∧
    headerReturnType HFun.set_conn_context = CType.void ∧
    headerReturnType HFun.set_loop_exchange = CType.void ∧
    headerReturnType HFun.set_send_timeout_ns = CType.void ∧
    headerReturnType HFun.set_recv_timeout_ns = CType.void ∧
    headerReturnType HFun.set_close_wait_timeout_ns = CType.void :=
  ⟨rfl, rfl, rfl, rfl, rfl, rfl, rfl, rfl, rfl, rfl⟩

end RdmaConn
